import Mathlib

/-!
Verification development for the Mobil Kargo delivery app.

The repository under verification is a role-based last-mile delivery app.
Its functional core is an order lifecycle state machine (pending, assigned,
picked_up, in_transit, delivered, cancelled) plus a location broadcast
channel.  The frontend sources (courier.tsx, customer.tsx, MapView.tsx and
the unnamed React Native screens) are embedded directly; the backend API
(claim or assign, status update, location report, fan-out) is not present in
the sources, so those operations are modelled from the specification text,
as marked in the doc comments below.
-/

namespace MobilKargo

/-- Order lifecycle states, from the status values used throughout the
frontend sources and the spec state machine. -/
inductive OrderStatus where
  | pending
  | assigned
  | picked_up
  | in_transit
  | delivered
  | cancelled
deriving DecidableEq, Repr

/-- Order record, projected to the fields the lifecycle logic reads
(interface Order in frontend/app/courier.tsx lines 21-37; courier_id is an
optional string there, hence Option String here). -/
structure Order where
  id : String
  customer_id : String
  business_id : String
  courier_id : Option String
  status : OrderStatus
deriving DecidableEq, Repr

/-- JavaScript truthiness of an optional string field: null, undefined and
the empty string are falsy; every other string is truthy. -/
def isTruthy : Option String → Bool
  | none => false
  | some s => s != ""

/-- From frontend/app/courier.tsx line 247 and the unnamed courier screen:
orders.filter with order.status equal to the pending literal and a falsy
courier_id. -/
def availableOrders (orders : List Order) : List Order :=
  orders.filter fun o => decide (o.status = OrderStatus.pending) && !(isTruthy o.courier_id)

/-- From frontend/app/courier.tsx line 248 and the unnamed courier screen:
orders.filter with order.courier_id strictly equal to the logged-in user id. -/
def myOrders (userId : String) (orders : List Order) : List Order :=
  orders.filter fun o => decide (o.courier_id = some userId)

/-- Error taxonomy of the order lifecycle manager, from spec section 7. -/
inductive OrderError where
  | AlreadyAssigned
  | InvalidTransition
  | Forbidden
deriving DecidableEq, Repr

/-- Modelled from the spec: the legal transition edges of the order state
machine in spec section 4.1 (the backend enforcing them is not in the
sources; the frontend only ever requests these edges). -/
def legalTransition : OrderStatus → OrderStatus → Bool
  | OrderStatus.pending, OrderStatus.assigned => true
  | OrderStatus.pending, OrderStatus.cancelled => true
  | OrderStatus.assigned, OrderStatus.picked_up => true
  | OrderStatus.picked_up, OrderStatus.in_transit => true
  | OrderStatus.in_transit, OrderStatus.delivered => true
  | _, _ => false

/-- Modelled from the spec: the backend claim operation (POST
orders/id/assign called by assignOrder in the courier screen is not in the
sources).  Spec section 4.1: a conditional update gated on the order still
being pending at the moment of write; on success it binds courier_id and
sets status to assigned; a loser observes AlreadyAssigned and the order is
not touched. -/
def claimOrder (courierId : String) (o : Order) : Except OrderError Order :=
  if o.status = OrderStatus.pending then
    Except.ok { o with status := OrderStatus.assigned, courier_id := some courierId }
  else
    Except.error OrderError.AlreadyAssigned

/-- Modelled from the spec: the backend status-update validation behind PUT
orders/id/status (updateOrderStatus in the courier screens only issues the
request; the server is not in the sources).  Spec section 4.1: a requested
transition that is not a legal edge fails with InvalidTransition and leaves
state unchanged. -/
def updateOrderStatus (target : OrderStatus) (o : Order) : Except OrderError Order :=
  if legalTransition o.status target then
    Except.ok { o with status := target }
  else
    Except.error OrderError.InvalidTransition

/-- Modelled from the spec: the advance operation of section 4.1; the bound
courier check comes first (else Forbidden), then the transition is
validated. -/
def advance (actorId : String) (target : OrderStatus) (o : Order) : Except OrderError Order :=
  if o.courier_id = some actorId then
    updateOrderStatus target o
  else
    Except.error OrderError.Forbidden

/-- The order state a caller holds after a fallible operation: the updated
order on success, the untouched input on failure. -/
def applyExcept (r : Except OrderError Order) (o : Order) : Order :=
  match r with
  | Except.ok o' => o'
  | Except.error _ => o

/-- The order state after a requested status update, threading the input
through unchanged on failure. -/
def stateAfterUpdate (target : OrderStatus) (o : Order) : Order :=
  applyExcept (updateOrderStatus target o) o

/-- The order state after an advance request, threading the input through
unchanged on failure. -/
def stateAfterAdvance (actorId : String) (target : OrderStatus) (o : Order) : Order :=
  applyExcept (advance actorId target o) o

/-- Result of a single claim attempt as observed by the caller. -/
def isOkResult : Except OrderError Unit → Bool
  | Except.ok _ => true
  | Except.error _ => false

/-- Modelled from the spec: N concurrent claim attempts on one order.  The
spec section 4.1 contract makes each claim an atomic conditional update, so
any concurrent execution serialises into some sequence of atomic claim
steps; this runs the attempts in that serialisation order, threading the
order state and recording each attempt result. -/
def runClaims : List String → Order → Order × List (Except OrderError Unit)
  | [], o => (o, [])
  | c :: cs, o =>
    match claimOrder c o with
    | Except.ok o' =>
      let p := runClaims cs o'
      (p.1, Except.ok () :: p.2)
    | Except.error e =>
      let p := runClaims cs o
      (p.1, Except.error e :: p.2)

/-- The sequence of distinct status values an order holds over time, when a
list of status-update requests is applied in order starting from a given
status: a legal request records the old status and moves on, an illegal
request is rejected and changes nothing. -/
def statusTrace : List OrderStatus → OrderStatus → List OrderStatus
  | [], s => [s]
  | t :: ts, s =>
    if legalTransition s t then s :: statusTrace ts t else statusTrace ts s

/-- The forward delivery line of the spec state machine. -/
def mainLine : List OrderStatus :=
  [OrderStatus.pending, OrderStatus.assigned, OrderStatus.picked_up,
   OrderStatus.in_transit, OrderStatus.delivered]

/-- The cancellation line of the spec state machine. -/
def cancelLine : List OrderStatus :=
  [OrderStatus.pending, OrderStatus.cancelled]

/-- The tail of the forward delivery line starting at a given status, used
as the induction invariant for the trace theorem. -/
def chainFrom : OrderStatus → List OrderStatus
  | OrderStatus.pending => [OrderStatus.pending, OrderStatus.assigned, OrderStatus.picked_up,
      OrderStatus.in_transit, OrderStatus.delivered]
  | OrderStatus.assigned => [OrderStatus.assigned, OrderStatus.picked_up,
      OrderStatus.in_transit, OrderStatus.delivered]
  | OrderStatus.picked_up => [OrderStatus.picked_up, OrderStatus.in_transit,
      OrderStatus.delivered]
  | OrderStatus.in_transit => [OrderStatus.in_transit, OrderStatus.delivered]
  | OrderStatus.delivered => [OrderStatus.delivered]
  | OrderStatus.cancelled => [OrderStatus.cancelled]

/-- The operations that may mutate an order after creation, from the spec
lifecycle: claim by a courier, advance by a courier, approve and reject by
the customer while pending. -/
inductive OrderOp where
  | claimOp (courierId : String)
  | advanceOp (courierId : String) (target : OrderStatus)
  | approveOp
  | rejectOp
deriving DecidableEq, Repr

/-- Modelled from the spec: the effect of one lifecycle operation on an
order record.  Approve is a no-op on status; reject while still pending is
terminal, equivalent to cancellation; failed claims and advances leave the
order untouched. -/
def stepOp : OrderOp → Order → Order
  | OrderOp.claimOp c, o => applyExcept (claimOrder c o) o
  | OrderOp.advanceOp c t, o => applyExcept (advance c t o) o
  | OrderOp.approveOp, o => o
  | OrderOp.rejectOp, o =>
    if o.status = OrderStatus.pending then { o with status := OrderStatus.cancelled } else o

/-- Modelled from the spec: order creation by a business always yields a
pending order with no courier bound. -/
def newOrder (id cust biz : String) : Order :=
  { id := id, customer_id := cust, business_id := biz,
    courier_id := none, status := OrderStatus.pending }

/-- Apply a sequence of lifecycle operations to an order. -/
def runOps : List OrderOp → Order → Order
  | [], o => o
  | op :: ops, o => runOps ops (stepOp op o)

/-- A courier position report, from the spec data model and the payload
sent by sendLocationToBackend in frontend/components/MapView.tsx. -/
structure LocationReport where
  courier_id : String
  latitude : Rat
  longitude : Rat
  accuracy : Rat
  timestamp : String
deriving DecidableEq, Repr

/-- Error taxonomy of the location broadcast channel, from spec section 7. -/
inductive LocError where
  | InvalidLocation
deriving DecidableEq, Repr

/-- The location store: latest report per courier, as an association list
keyed by courier id. -/
abbrev LocStore : Type := List (String × LocationReport)

/-- Modelled from the spec: coordinate validation of the report operation,
latitude in [-90, 90] and longitude in [-180, 180]. -/
def validLocation (lat lng : Rat) : Bool :=
  decide (-90 ≤ lat) && decide (lat ≤ 90) && decide (-180 ≤ lng) && decide (lng ≤ 180)

/-- Insert or replace the entry for one courier in the location store. -/
def upsert (c : String) (r : LocationReport) : LocStore → LocStore
  | [] => [(c, r)]
  | (c', r') :: rest =>
    if c' = c then (c, r) :: rest else (c', r') :: upsert c r rest

/-- Modelled from the spec: the report operation of the location broadcast
channel (POST location/update; the server is not in the sources).  Spec
section 4.2: out-of-range coordinates are rejected with InvalidLocation and
have no side effect; valid coordinates upsert the latest report. -/
def report (store : LocStore) (c : String) (lat lng acc : Rat) (ts : String) :
    Except LocError LocStore :=
  if validLocation lat lng then
    Except.ok (upsert c ⟨c, lat, lng, acc, ts⟩ store)
  else
    Except.error LocError.InvalidLocation

/-- The store a caller holds after a report: updated on success, untouched
on failure. -/
def stateAfterReport (store : LocStore) (c : String) (lat lng acc : Rat) (ts : String) :
    LocStore :=
  match report store c lat lng acc ts with
  | Except.ok s' => s'
  | Except.error _ => store

/-- Modelled from the spec: getLatest returns the most recently stored
report for a courier, or none if the courier never reported; a pure read. -/
def getLatest (store : LocStore) (c : String) : Option LocationReport :=
  (store.find? fun p => decide (p.1 = c)).map Prod.snd

/-- Statuses for which a location fan-out reaches the customer of an order,
from spec section 4.2 and mirrored by the frontend track gates
(customer.tsx line 369, the active-order filter of the map screen). -/
def activeStatus : OrderStatus → Bool
  | OrderStatus.assigned => true
  | OrderStatus.picked_up => true
  | OrderStatus.in_transit => true
  | _ => false

/-- A location push message delivered to one customer, of the outbound
shape in spec section 6 plus its target. -/
structure PushMessage where
  target : String
  order_id : String
  courier_id : String
  latitude : Rat
  longitude : Rat
deriving DecidableEq, Repr

/-- Modelled from the spec: the orders a report from one courier fans out
to, namely the orders bound to that courier whose status is assigned,
picked_up or in_transit and whose customer holds a live connection. -/
def fanoutOrders (orders : List Order) (connected : List String) (c : String) : List Order :=
  orders.filter fun o =>
    decide (o.courier_id = some c) && activeStatus o.status &&
      decide (o.customer_id ∈ connected)

/-- Modelled from the spec: the push messages produced by one valid report,
one per fanned-out order, addressed to the customer of that order. -/
def fanout (orders : List Order) (connected : List String) (c : String) (lat lng : Rat) :
    List PushMessage :=
  (fanoutOrders orders connected c).map fun o =>
    { target := o.customer_id, order_id := o.id, courier_id := c,
      latitude := lat, longitude := lng }

/-- A logged-in user as the map screen sees it (interface User in the
unnamed map screen source). -/
structure AppUser where
  id : String
  full_name : String
  role : String
deriving DecidableEq, Repr

/-- From the unnamed map screen source line 238: the DeliveryMap component
receives trackingMode equal to the test that the logged-in user role is
kurye; with no user the prop stays at its declared default false
(MapView.tsx line 57). -/
def mapTrackingMode : Option AppUser → Bool
  | some u => decide (u.role = "kurye")
  | none => false

/-- From frontend/components/MapView.tsx lines 83-87: location tracking is
started exactly when trackingMode and locationPermission both hold; the
only call to sendLocationToBackend is inside the watch callback installed
by startLocationTracking. -/
def startsLocationTracking (trackingMode locationPermission : Bool) : Bool :=
  trackingMode && locationPermission

/-- Whether a map session for a given logged-in user ever issues a location
report request to the backend: exactly when tracking starts. -/
def sendsLocationReports (u : Option AppUser) (locationPermission : Bool) : Bool :=
  startsLocationTracking (mapTrackingMode u) locationPermission

/-! ## Helper lemmas -/

theorem isTruthy_eq_false (x : Option String) :
    isTruthy x = false ↔ x = none ∨ x = some "" := by
  cases x with
  | none => simp [isTruthy]
  | some s => simp [isTruthy]

theorem mem_availableOrders_iff (orders : List Order) (o : Order) :
    o ∈ availableOrders orders ↔
      o ∈ orders ∧ o.status = OrderStatus.pending ∧
        (o.courier_id = none ∨ o.courier_id = some "") := by
  simp [availableOrders, List.mem_filter, ← isTruthy_eq_false, and_assoc]

/-! ## C3: the available-orders view -/

/-- C3 (counterexample): the claim that availableOrders returns only orders
whose courier_id is null fails on the code: the JavaScript test on a falsy
courier_id also admits the empty string, so an order with courier_id equal
to the empty string and status pending is returned although its courier_id
is not null. -/
theorem availableOrders_null_cex :
    (Order.mk "o1" "c1" "b1" (some "") OrderStatus.pending) ∈
        availableOrders [Order.mk "o1" "c1" "b1" (some "") OrderStatus.pending] ∧
      ¬ (Order.mk "o1" "c1" "b1" (some "") OrderStatus.pending).courier_id = none := by
  decide

/-- C3 (amended): availableOrders returns all and only the orders whose
status is pending and whose courier_id is JavaScript-falsy, that is null or
the empty string; for order lists that never carry an empty-string
courier_id this coincides with the orders whose courier_id is null. -/
theorem availableOrders_spec (orders : List Order) (o : Order) :
    o ∈ availableOrders orders ↔
      o ∈ orders ∧ o.status = OrderStatus.pending ∧
        (o.courier_id = none ∨ o.courier_id = some "") :=
  mem_availableOrders_iff orders o

/-! ## C9: available orders and my orders are disjoint -/

/-- C9: for every fetched list of orders and every logged-in user with a
non-empty id, no order is both in the available-orders list and in the
my-orders list of the courier dashboard. -/
theorem available_my_disjoint (orders : List Order) (uid : String) (h : uid ≠ "")
    (o : Order) (ho : o ∈ availableOrders orders) : o ∉ myOrders uid orders := by
  intro hm
  rw [mem_availableOrders_iff] at ho
  have hmy : o.courier_id = some uid :=
    of_decide_eq_true (List.mem_filter.mp hm).2
  rcases ho.2.2 with h1 | h1 <;> rw [h1] at hmy
  · exact Option.noConfusion hmy
  · exact h (by injection hmy with h2; exact h2.symm)

/-- C9 (witness): a concrete pending unassigned order is in the available
list and not in the my-orders list of courier k1. -/
theorem available_my_disjoint_witness :
    (Order.mk "o1" "c1" "b1" none OrderStatus.pending) ∉
      myOrders "k1" [Order.mk "o1" "c1" "b1" none OrderStatus.pending] :=
  available_my_disjoint [Order.mk "o1" "c1" "b1" none OrderStatus.pending] "k1"
    (by decide) (Order.mk "o1" "c1" "b1" none OrderStatus.pending) (by decide)

/-! ## C1: the claim race has exactly one winner -/

theorem runClaims_not_pending (cs : List String) (o : Order)
    (h : ¬ o.status = OrderStatus.pending) :
    runClaims cs o = (o, cs.map fun _ => Except.error OrderError.AlreadyAssigned) := by
  induction cs with
  | nil => simp [runClaims]
  | cons c cs ih => simp [runClaims, claimOrder, h, ih]

/-- C1: for every pending order and every serialisation of N concurrent
claim attempts, the first atomic claim wins and every other attempt fails
with AlreadyAssigned; the order ends assigned and bound to the single
winner, a failed claim leaves the threaded order state untouched, and the
number of successful results is exactly one. -/
theorem claim_race_one_winner (c : String) (cs : List String) (o : Order)
    (h : o.status = OrderStatus.pending) :
    runClaims (c :: cs) o =
      ({ o with status := OrderStatus.assigned, courier_id := some c },
        Except.ok () :: cs.map fun _ => Except.error OrderError.AlreadyAssigned) ∧
    (runClaims (c :: cs) o).2.countP isOkResult = 1 := by
  have h1 : claimOrder c o =
      Except.ok { o with status := OrderStatus.assigned, courier_id := some c } := by
    simp [claimOrder, h]
  have h2 : runClaims cs { o with status := OrderStatus.assigned, courier_id := some c } =
      ({ o with status := OrderStatus.assigned, courier_id := some c },
        cs.map fun _ => Except.error OrderError.AlreadyAssigned) :=
    runClaims_not_pending cs _ (by simp)
  have heq : runClaims (c :: cs) o =
      ({ o with status := OrderStatus.assigned, courier_id := some c },
        Except.ok () :: cs.map fun _ => Except.error OrderError.AlreadyAssigned) := by
    simp [runClaims, h1, h2]
  refine ⟨heq, ?_⟩
  rw [heq]
  simp [List.countP_cons, List.countP_map, isOkResult, Function.comp]

/-- C1 (witness): two couriers race for a freshly created order; courier k1
claims first, wins, and k2 observes AlreadyAssigned. -/
theorem claim_race_one_winner_witness :
    runClaims ["k1", "k2"] (newOrder "o1" "c1" "b1") =
      ({ newOrder "o1" "c1" "b1" with
          status := OrderStatus.assigned, courier_id := some "k1" },
        Except.ok () :: ["k2"].map fun _ => Except.error OrderError.AlreadyAssigned) ∧
    (runClaims ["k1", "k2"] (newOrder "o1" "c1" "b1")).2.countP isOkResult = 1 :=
  claim_race_one_winner "k1" ["k2"] (newOrder "o1" "c1" "b1") rfl

/-! ## C2: only legal transitions, and traces follow the two lines -/

theorem statusTrace_sublist (ts : List OrderStatus) (s : OrderStatus) :
    List.Sublist (statusTrace ts s) (chainFrom s) ∨
      (s = OrderStatus.pending ∧ List.Sublist (statusTrace ts s) cancelLine) := by
  induction ts generalizing s with
  | nil =>
    left
    cases s <;> simp [statusTrace, chainFrom]
  | cons t ts ih =>
    by_cases h : legalTransition s t = true
    · rw [statusTrace, if_pos h]
      cases s <;> cases t <;> simp only [legalTransition, Bool.false_eq_true] at h
      · rcases ih OrderStatus.assigned with h' | h'
        · exact Or.inl (List.Sublist.cons₂ _ h')
        · exact absurd h'.1 (by decide)
      · rcases ih OrderStatus.cancelled with h' | h'
        · exact Or.inr ⟨rfl, List.Sublist.cons₂ _ h'⟩
        · exact absurd h'.1 (by decide)
      · rcases ih OrderStatus.picked_up with h' | h'
        · exact Or.inl (List.Sublist.cons₂ _ h')
        · exact absurd h'.1 (by decide)
      · rcases ih OrderStatus.in_transit with h' | h'
        · exact Or.inl (List.Sublist.cons₂ _ h')
        · exact absurd h'.1 (by decide)
      · rcases ih OrderStatus.delivered with h' | h'
        · exact Or.inl (List.Sublist.cons₂ _ h')
        · exact absurd h'.1 (by decide)
    · rw [statusTrace, if_neg h]
      exact ih s

/-- C2: a requested status transition that is not one of the legal edges of
the state machine fails with InvalidTransition and leaves the order state
unchanged; consequently the status sequence of any order over time, from
pending through any sequence of requested transitions, is a sublist of the
forward delivery line or of the cancellation line. -/
theorem transition_discipline (o : Order) (target : OrderStatus) (ts : List OrderStatus)
    (h : legalTransition o.status target = false) :
    updateOrderStatus target o = Except.error OrderError.InvalidTransition ∧
    stateAfterUpdate target o = o ∧
    (List.Sublist (statusTrace ts OrderStatus.pending) mainLine ∨
      List.Sublist (statusTrace ts OrderStatus.pending) cancelLine) := by
  refine ⟨?_, ?_, ?_⟩
  · simp [updateOrderStatus, h]
  · simp [stateAfterUpdate, updateOrderStatus, h, applyExcept]
  · rcases statusTrace_sublist ts OrderStatus.pending with h' | h'
    · exact Or.inl h'
    · exact Or.inr h'.2

/-- C2 (witness): requesting delivered on a fresh pending order is rejected
with InvalidTransition and changes nothing, and the trace of a legal
two-step run is a sublist of the forward delivery line. -/
theorem transition_discipline_witness :
    updateOrderStatus OrderStatus.delivered (newOrder "o1" "c1" "b1") =
      Except.error OrderError.InvalidTransition ∧
    stateAfterUpdate OrderStatus.delivered (newOrder "o1" "c1" "b1") = newOrder "o1" "c1" "b1" ∧
    (List.Sublist (statusTrace [OrderStatus.assigned, OrderStatus.picked_up] OrderStatus.pending)
        mainLine ∨
      List.Sublist (statusTrace [OrderStatus.assigned, OrderStatus.picked_up] OrderStatus.pending)
        cancelLine) :=
  transition_discipline (newOrder "o1" "c1" "b1") OrderStatus.delivered
    [OrderStatus.assigned, OrderStatus.picked_up] rfl

/-! ## C4: advance by a courier other than the bound one -/

/-- C4: advance called by an actor whose identity is not the bound
courier_id of the order fails with Forbidden and never changes the order,
for every target status. -/
theorem advance_forbidden (o : Order) (actor : String) (target : OrderStatus)
    (h : ¬ o.courier_id = some actor) :
    advance actor target o = Except.error OrderError.Forbidden ∧
    stateAfterAdvance actor target o = o := by
  constructor
  · simp [advance, h]
  · simp [stateAfterAdvance, advance, h, applyExcept]

/-- C4 (witness): courier k2 tries to advance an order bound to k1 and gets
Forbidden with no state change. -/
theorem advance_forbidden_witness :
    advance "k2" OrderStatus.picked_up
        (Order.mk "o1" "c1" "b1" (some "k1") OrderStatus.assigned) =
      Except.error OrderError.Forbidden ∧
    stateAfterAdvance "k2" OrderStatus.picked_up
        (Order.mk "o1" "c1" "b1" (some "k1") OrderStatus.assigned) =
      Order.mk "o1" "c1" "b1" (some "k1") OrderStatus.assigned :=
  advance_forbidden (Order.mk "o1" "c1" "b1" (some "k1") OrderStatus.assigned) "k2"
    OrderStatus.picked_up (by decide)

/-! ## C5: courier binding across the order lifetime -/

theorem no_transition_to_pending (s : OrderStatus) :
    legalTransition s OrderStatus.pending = false := by
  cases s <;> rfl

theorem stepOp_preserves_pendingUnassigned (op : OrderOp) (o : Order)
    (h : o.status = OrderStatus.pending → o.courier_id = none) :
    (stepOp op o).status = OrderStatus.pending → (stepOp op o).courier_id = none := by
  cases op with
  | claimOp c =>
    by_cases hp : o.status = OrderStatus.pending
    · simp [stepOp, claimOrder, hp, applyExcept]
    · simp [stepOp, claimOrder, hp, applyExcept]
  | advanceOp c t =>
    by_cases hb : o.courier_id = some c
    · by_cases ht : legalTransition o.status t = true
      · simp only [stepOp, advance, updateOrderStatus, hb, ht, if_pos, if_true, applyExcept]
        intro hc
        rw [hc] at ht
        rw [no_transition_to_pending o.status] at ht
        exact Bool.noConfusion ht
      · simpa [stepOp, advance, updateOrderStatus, hb, ht, applyExcept] using h
    · simpa [stepOp, advance, hb, applyExcept] using h
  | approveOp => simpa [stepOp] using h
  | rejectOp =>
    by_cases hp : o.status = OrderStatus.pending
    · simp [stepOp, hp]
    · simp [stepOp, hp]

theorem stepOp_courier_stable (op : OrderOp) (o : Order) (c : String)
    (hInv : o.status = OrderStatus.pending → o.courier_id = none)
    (hc : o.courier_id = some c) : (stepOp op o).courier_id = some c := by
  cases op with
  | claimOp c' =>
    by_cases hp : o.status = OrderStatus.pending
    · rw [hInv hp] at hc
      exact Option.noConfusion hc
    · simpa [stepOp, claimOrder, hp, applyExcept] using hc
  | advanceOp c' t =>
    by_cases hb : o.courier_id = some c'
    · by_cases ht : legalTransition o.status t = true
      · simpa [stepOp, advance, updateOrderStatus, hb, ht, applyExcept] using hc
      · simpa [stepOp, advance, updateOrderStatus, hb, ht, applyExcept] using hc
    · simpa [stepOp, advance, hb, applyExcept] using hc
  | approveOp => simpa [stepOp] using hc
  | rejectOp =>
    by_cases hp : o.status = OrderStatus.pending
    · simpa [stepOp, hp] using hc
    · simpa [stepOp, hp] using hc

theorem runOps_preserves_pendingUnassigned (ops : List OrderOp) (o : Order)
    (h : o.status = OrderStatus.pending → o.courier_id = none) :
    (runOps ops o).status = OrderStatus.pending → (runOps ops o).courier_id = none := by
  induction ops generalizing o with
  | nil => simpa [runOps] using h
  | cons op ops ih =>
    simpa [runOps] using ih (stepOp op o) (stepOp_preserves_pendingUnassigned op o h)

theorem runOps_courier_stable (ops : List OrderOp) (o : Order) (c : String)
    (hInv : o.status = OrderStatus.pending → o.courier_id = none)
    (hc : o.courier_id = some c) : (runOps ops o).courier_id = some c := by
  induction ops generalizing o with
  | nil => simpa [runOps] using hc
  | cons op ops ih =>
    simpa [runOps] using
      ih (stepOp op o) (stepOp_preserves_pendingUnassigned op o hInv)
        (stepOp_courier_stable op o c hInv hc)

theorem runOps_append (ops ops2 : List OrderOp) (o : Order) :
    runOps (ops ++ ops2) o = runOps ops2 (runOps ops o) := by
  induction ops generalizing o with
  | nil => simp [runOps]
  | cons op ops ih => simp [runOps, ih]

/-- C5 (counterexample): the claimed invariant that courier_id is null iff
status is pending fails on the modelled lifecycle: a customer reject of a
freshly created order yields a reachable state whose status is cancelled
while courier_id is still null. -/
theorem courier_null_iff_pending_cex :
    (runOps [OrderOp.rejectOp] (newOrder "o1" "c1" "b1")).courier_id = none ∧
      ¬ (runOps [OrderOp.rejectOp] (newOrder "o1" "c1" "b1")).status = OrderStatus.pending := by
  decide

/-- C5 (amended): for every reachable order state, if status is pending
then courier_id is null (equivalently, a set courier_id implies a
non-pending status), and once courier_id is set it never changes for the
remaining life of the order, under every sequence of claim, advance,
approve and reject operations; the iff direction fails only for orders
cancelled out of pending, which keep a null courier_id. -/
theorem courier_binding_invariant (idS cust biz : String) (ops ops2 : List OrderOp)
    (c : String) :
    ((runOps ops (newOrder idS cust biz)).status = OrderStatus.pending →
      (runOps ops (newOrder idS cust biz)).courier_id = none) ∧
    ((runOps ops (newOrder idS cust biz)).courier_id = some c →
      (runOps (ops ++ ops2) (newOrder idS cust biz)).courier_id = some c) := by
  have h0 : (newOrder idS cust biz).status = OrderStatus.pending →
      (newOrder idS cust biz).courier_id = none := fun _ => rfl
  refine ⟨runOps_preserves_pendingUnassigned ops _ h0, ?_⟩
  intro hc
  rw [runOps_append]
  exact runOps_courier_stable ops2 _ c (runOps_preserves_pendingUnassigned ops _ h0) hc

/-- C5 (witness): after k1 claims a fresh order and then advances it, the
bound courier is still k1. -/
theorem courier_binding_invariant_witness :
    (runOps ([OrderOp.claimOp "k1"] ++ [OrderOp.advanceOp "k1" OrderStatus.picked_up])
        (newOrder "o1" "c1" "b1")).courier_id = some "k1" :=
  (courier_binding_invariant "o1" "c1" "b1" [OrderOp.claimOp "k1"]
    [OrderOp.advanceOp "k1" OrderStatus.picked_up] "k1").2 (by decide)

/-! ## C6: coordinate validation of report -/

/-- C6: a location report whose latitude lies outside [-90, 90] or whose
longitude lies outside [-180, 180] fails with InvalidLocation and leaves
the stored latest locations unchanged. -/
theorem report_out_of_range (store : LocStore) (c : String) (lat lng acc : Rat)
    (ts : String) (h : lat < -90 ∨ 90 < lat ∨ lng < -180 ∨ 180 < lng) :
    report store c lat lng acc ts = Except.error LocError.InvalidLocation ∧
    stateAfterReport store c lat lng acc ts = store := by
  have hv : validLocation lat lng = false := by
    rcases h with h | h | h | h <;> simp [validLocation, not_le.mpr h]
  constructor
  · simp [report, hv]
  · simp [stateAfterReport, report, hv]

/-- C6 (witness): a report with latitude 91 is rejected with
InvalidLocation and the empty store stays empty. -/
theorem report_out_of_range_witness :
    report ([] : LocStore) "k1" 91 29 10 "t1" = Except.error LocError.InvalidLocation ∧
    stateAfterReport ([] : LocStore) "k1" 91 29 10 "t1" = ([] : LocStore) :=
  report_out_of_range [] "k1" 91 29 10 "t1" (by decide)

/-! ## C8: getLatest is last-write-wins -/

theorem getLatest_upsert (store : LocStore) (c : String) (r : LocationReport) :
    getLatest (upsert c r store) c = some r := by
  induction store with
  | nil => simp [upsert, getLatest, List.find?]
  | cons p rest ih =>
    obtain ⟨c', r'⟩ := p
    by_cases hc : c' = c
    · simp [upsert, hc, getLatest, List.find?]
    · simpa [upsert, hc, getLatest, List.find?] using ih

theorem getLatest_not_reported (store : LocStore) (c : String)
    (h : ∀ p ∈ store, ¬ p.1 = c) : getLatest store c = none := by
  induction store with
  | nil => rfl
  | cons p rest ih =>
    have h1 := h p (List.mem_cons_self p rest)
    simpa [getLatest, List.find?, h1] using
      ih fun q hq => h q (List.mem_cons_of_mem p hq)

/-- C8: getLatest is a pure read returning the most recently stored report
for a courier: it returns none for a courier that never reported, and after
two sequential valid reports by the same courier it returns exactly the
second report. -/
theorem getLatest_spec (store : LocStore) (c : String)
    (lat1 lng1 acc1 : Rat) (ts1 : String) (lat2 lng2 acc2 : Rat) (ts2 : String)
    (hnever : ∀ p ∈ store, ¬ p.1 = c)
    (h1 : validLocation lat1 lng1 = true) (h2 : validLocation lat2 lng2 = true) :
    getLatest store c = none ∧
    getLatest (stateAfterReport (stateAfterReport store c lat1 lng1 acc1 ts1)
        c lat2 lng2 acc2 ts2) c =
      some (LocationReport.mk c lat2 lng2 acc2 ts2) := by
  refine ⟨getLatest_not_reported store c hnever, ?_⟩
  simp [stateAfterReport, report, h1, h2, getLatest_upsert]

/-- C8 (witness): on the empty store, courier k1 has no latest location,
and after two sequential reports getLatest returns the second one. -/
theorem getLatest_spec_witness :
    getLatest ([] : LocStore) "k1" = none ∧
    getLatest (stateAfterReport (stateAfterReport ([] : LocStore) "k1" 40 29 10 "t1")
        "k1" 41 28 10 "t2") "k1" =
      some (LocationReport.mk "k1" 41 28 10 "t2") :=
  getLatest_spec [] "k1" 40 29 10 "t1" 41 28 10 "t2" (by simp) (by decide) (by decide)

/-! ## C7: fan-out only for active orders -/

/-- C7: a location report of a courier fans out only to orders bound to
that courier whose status is assigned, picked_up or in_transit; an order
outside this status set, in particular a delivered one, is never fanned
out, so its customer receives no push message for that order, and every
push message arises from exactly the fanned-out orders. -/
theorem fanout_skips_inactive (orders : List Order) (connected : List String)
    (c : String) (lat lng : Rat) (o : Order)
    (h : activeStatus o.status = false) :
    o ∉ fanoutOrders orders connected c ∧
    (∀ o' ∈ fanoutOrders orders connected c,
      o'.courier_id = some c ∧ activeStatus o'.status = true) ∧
    fanout orders connected c lat lng =
      (fanoutOrders orders connected c).map fun o' =>
        PushMessage.mk o'.customer_id o'.id c lat lng := by
  refine ⟨?_, ?_, rfl⟩
  · intro hm
    have hp := (List.mem_filter.mp hm).2
    simp [h] at hp
  · intro o' hm
    have hp := (List.mem_filter.mp hm).2
    simp only [Bool.and_eq_true, decide_eq_true_eq] at hp
    exact ⟨hp.1.1, hp.1.2⟩

/-- C7 (witness): a delivered order bound to k1, with its customer
connected, is not in the fan-out set of a report by k1. -/
theorem fanout_skips_inactive_witness :
    Order.mk "o1" "c1" "b1" (some "k1") OrderStatus.delivered ∉
      fanoutOrders [Order.mk "o1" "c1" "b1" (some "k1") OrderStatus.delivered] ["c1"] "k1" :=
  (fanout_skips_inactive [Order.mk "o1" "c1" "b1" (some "k1") OrderStatus.delivered]
    ["c1"] "k1" 41 29 (Order.mk "o1" "c1" "b1" (some "k1") OrderStatus.delivered)
    (by decide)).1

/-! ## C10: location reports only from courier tracking sessions -/

/-- C10: the map screen enables tracking mode only for a logged-in user
whose role is kurye, and location reports are sent only from a tracking
session; hence a map session of a user whose role is not kurye, or with no
logged-in user, never issues a location report request, whatever the
permission state. -/
theorem no_location_reports_for_non_courier (x : AppUser) (perm : Bool)
    (h : ¬ x.role = "kurye") :
    sendsLocationReports (some x) perm = false ∧
    sendsLocationReports none perm = false := by
  constructor
  · simp [sendsLocationReports, startsLocationTracking, mapTrackingMode, h]
  · simp [sendsLocationReports, startsLocationTracking, mapTrackingMode]

/-- C10 (witness): a customer-role user with location permission granted
never triggers a location report from the map screen. -/
theorem no_location_reports_for_non_courier_witness :
    sendsLocationReports (some (AppUser.mk "u1" "Ayse" "musteri")) true = false ∧
    sendsLocationReports none true = false :=
  no_location_reports_for_non_courier (AppUser.mk "u1" "Ayse" "musteri") true (by decide)

end MobilKargo
